import Mathlib

set_option maxHeartbeats 1000000

/-!
Shallow embedding of the session-discovery engine and the terminal-profile
layer of the Linux claude-menu tool (src/linux/lib/session.py and
src/linux/lib/terminal/). Python strings are modelled as lists of
characters; dynamic JSON values as the inductive JVal; Python exceptions
as Except results.
-/

/-- A Python/JSON scalar value as it occurs in session index entries and
log records: a string, an integer, or None/null. An absent dictionary key
is also observed as JVal.none through dict.get, matching Python. -/
inductive JVal where
  | s (v : List Char)
  | n (v : Int)
  | none
  deriving DecidableEq

/-- Python truthiness of a dynamic value: the empty string, zero and None
are falsy, everything else is truthy. -/
def jtruthy : JVal → Bool
  | JVal.s v => !v.isEmpty
  | JVal.n k => decide (k ≠ 0)
  | JVal.none => false

/-- The Python expression a or b: yields a when a is truthy, otherwise
yields b (whatever b is, truthy or not). -/
def pyOr (a b : JVal) : JVal := if jtruthy a then a else b

/-- A JSON object (Python dict) as found in a sessions-index.json entries
array, modelled as an association list from key to value. -/
abbrev Entry := List (List Char × JVal)

/-- entry.get(k): the stored value, or None when the key is absent. -/
def jget (entry : Entry) (k : List Char) : JVal := (entry.lookup k).getD JVal.none

/-- entry.get(k, d): the stored value, or the default d when absent. -/
def jgetD (entry : Entry) (k : List Char) (d : JVal) : JVal := (entry.lookup k).getD d

/-- The sessionId key of the identifier synonym group. -/
def kwSessionId : List Char := "sessionId".toList

/-- The session_id key of the identifier synonym group. -/
def kwSessionIdU : List Char := "session_id".toList

/-- The id key of the identifier synonym group. -/
def kwId : List Char := "id".toList

/-- The record type value marking a summary record. -/
def kwSummary : List Char := "summary".toList

/-- The record type value marking a user record. -/
def kwUser : List Char := "user".toList

/-- Source line 131: entry.get of sessionId, or of session_id, or of id
with default the empty string. -/
def selectId (entry : Entry) : JVal :=
  pyOr (pyOr (jget entry kwSessionId) (jget entry kwSessionIdU))
    (jgetD entry kwId (JVal.s []))

/-- Source line 139: created, createdAt, then timestamp with default. -/
def selectCreated (entry : Entry) : JVal :=
  pyOr (pyOr (jget entry ("created".toList)) (jget entry ("createdAt".toList)))
    (jgetD entry ("timestamp".toList) (JVal.s []))

/-- Source line 140: modified, modifiedAt, then lastModified with default. -/
def selectModified (entry : Entry) : JVal :=
  pyOr (pyOr (jget entry ("modified".toList)) (jget entry ("modifiedAt".toList)))
    (jgetD entry ("lastModified".toList) (JVal.s []))

/-- Source line 146: projectPath, project_path, then cwd with default. -/
def selectPath (entry : Entry) : JVal :=
  pyOr (pyOr (jget entry ("projectPath".toList)) (jget entry ("project_path".toList)))
    (jgetD entry ("cwd".toList) (JVal.s []))

/-- Source line 155: summary, customTitle, then title with default. -/
def selectTitle (entry : Entry) : JVal :=
  pyOr (pyOr (jget entry ("summary".toList)) (jget entry ("customTitle".toList)))
    (jgetD entry ("title".toList) (JVal.s []))

/-- Source line 156: firstPrompt, then first_prompt with default. -/
def selectPrompt (entry : Entry) : JVal :=
  pyOr (jget entry ("firstPrompt".toList)) (jgetD entry ("first_prompt".toList) (JVal.s []))

/-- Source line 157: messageCount, then message_count with default 0. -/
def selectCount (entry : Entry) : JVal :=
  pyOr (jget entry ("messageCount".toList)) (jgetD entry ("message_count".toList) (JVal.n 0))

/-- Source line 158: gitBranch, then git_branch with default. -/
def selectBranch (entry : Entry) : JVal :=
  pyOr (jget entry ("gitBranch".toList)) (jgetD entry ("git_branch".toList) (JVal.s []))

/-- Refinement companion for the synonym groups, written from the amended
wording of the claim: scan the keys in order and take the first whose
stored value is truthy; when none is truthy, the last key is read with
dict.get and the group default. -/
def specSelect (entry : Entry) : List (List Char) → JVal → JVal
  | [], d => d
  | [k], d => jgetD entry k d
  | k :: k2 :: ks, d =>
    if jtruthy (jget entry k) then jget entry k else specSelect entry (k2 :: ks) d

/-- A Python exception class observed by the model. -/
inductive PyErr where
  | typeError
  | attributeError
  deriving DecidableEq

/-- A Python datetime: calendar fields plus an optional UTC offset in
minutes (None for a naive datetime). -/
structure PyDateTime where
  year : Nat
  month : Nat
  day : Nat
  hour : Nat
  minute : Nat
  second : Nat
  tz : Option Int
  deriving DecidableEq

/-- Read exactly n decimal digits, returning their value and the rest. -/
def readFixedAux : Nat → Nat → List Char → Option (Nat × List Char)
  | 0, acc, cs => some (acc, cs)
  | _ + 1, _, [] => Option.none
  | k + 1, acc, c :: cs =>
    if c.isDigit then readFixedAux k (acc * 10 + (c.toNat - ('0').toNat)) cs
    else Option.none

/-- Consume one expected character. -/
def expectChar (c : Char) : List Char → Option (List Char)
  | x :: xs => if x = c then some xs else Option.none
  | [] => Option.none

/-- Model of the standard library datetime.fromisoformat, restricted to
the shapes YYYY-MM-DD, optionally followed by THH:MM or THH:MM:SS and an
optional +HH:MM or -HH:MM offset. Fractional seconds, separators other
than the literal T, and other offset shapes are outside the modelled
domain. Option.none stands for ValueError; day validation is simplified
to the range 1..31. -/
def fromisoformat (cs : List Char) : Option PyDateTime := do
  let (y, cs) ← readFixedAux 4 0 cs
  let cs ← expectChar '-' cs
  let (mo, cs) ← readFixedAux 2 0 cs
  let cs ← expectChar '-' cs
  let (d, cs) ← readFixedAux 2 0 cs
  if ¬(1 ≤ mo ∧ mo ≤ 12 ∧ 1 ≤ d ∧ d ≤ 31) then Option.none else
  match cs with
  | [] => some ⟨y, mo, d, 0, 0, 0, Option.none⟩
  | 'T' :: cs => do
    let (h, cs) ← readFixedAux 2 0 cs
    let cs ← expectChar ':' cs
    let (mi, cs) ← readFixedAux 2 0 cs
    let (sec, cs) ← match cs with
      | ':' :: cs2 => readFixedAux 2 0 cs2
      | _ => some (0, cs)
    if ¬(h ≤ 23 ∧ mi ≤ 59 ∧ sec ≤ 59) then Option.none else
    match cs with
    | [] => some ⟨y, mo, d, h, mi, sec, Option.none⟩
    | sgn :: cs2 => do
      if ¬(sgn = '+' ∨ sgn = '-') then Option.none else
      let (oh, cs3) ← readFixedAux 2 0 cs2
      let cs4 ← expectChar ':' cs3
      let (om, cs5) ← readFixedAux 2 0 cs4
      if cs5 = [] ∧ oh ≤ 23 ∧ om ≤ 59 then
        some ⟨y, mo, d, h, mi, sec,
          some (if sgn = '-' then -((oh : Int) * 60 + om) else ((oh : Int) * 60 + om))⟩
      else Option.none
  | _ => Option.none

/-- Python str.endswith with the one-character suffix used by the source. -/
def endsWithZ : List Char → Bool
  | [] => false
  | [c] => decide (c = 'Z')
  | _ :: c :: cs => endsWithZ (c :: cs)

/-- Python str.replace with the one-character pattern Z and replacement
+00:00: every occurrence is rewritten, scanning left to right. -/
def replaceZ : List Char → List Char
  | [] => []
  | c :: cs => (if c = 'Z' then "+00:00".toList else [c]) ++ replaceZ cs

/-- The preprocessing performed by _parse_datetime before fromisoformat:
a trailing literal Z is rewritten to +00:00 (value[:-1] plus the offset
text), then every remaining Z character is replaced by +00:00. -/
def zTransform (value : List Char) : List Char :=
  let v1 := if endsWithZ value then value.dropLast ++ ("+00:00".toList) else value
  replaceZ v1

/-- The source's _parse_datetime(value): an empty string and any text
fromisoformat rejects fall back to the current wall clock, which the model
receives explicitly as now; otherwise the fromisoformat result is used. -/
def _parse_datetime (now : PyDateTime) (value : List Char) : PyDateTime :=
  if value = [] then now
  else
    match fromisoformat (zTransform value) with
    | some d => d
    | Option.none => now

/-- _parse_datetime applied to an arbitrary dynamic value, as happens in
_parse_session_entry: None and the integer 0 are falsy and yield now at
the not-value guard; a nonzero integer reaches value.endswith and raises
AttributeError. -/
def parseDatetimeJ (now : PyDateTime) : JVal → Except PyErr PyDateTime
  | JVal.none => Except.ok now
  | JVal.s v => Except.ok (_parse_datetime now v)
  | JVal.n k => if k = 0 then Except.ok now else Except.error PyErr.attributeError

/-- Model of datetime.fromtimestamp: a monotone embedding of the epoch
timestamp into the datetime structure. The calendar split is irrelevant to
every claim; negative timestamps are outside the modelled domain. -/
def fromtimestamp (t : Int) : PyDateTime := ⟨1970, 1, 1, 0, 0, t.toNat, Option.none⟩

/-- The order key of a modelled datetime: a mixed-radix reading of the
calendar fields, shifted by the UTC offset when one is present (a naive
datetime is compared as written; the source would raise on a mixed
aware/naive comparison, which the model does not reproduce). -/
def dtKey (d : PyDateTime) : Int :=
  (((((d.year : Int) * 12 + d.month) * 31 + d.day) * 24 + d.hour) * 60 + d.minute) * 60
    + d.second - (d.tz.getD 0) * 60

/-- Python str.lstrip applied with the separator: drop leading slashes. -/
def lstripSlash : List Char → List Char
  | [] => []
  | c :: cs => if c = '/' then lstripSlash cs else c :: cs

/-- Single-character str.replace. -/
def replaceChar (a b : Char) (s : List Char) : List Char :=
  s.map (fun c => if c = a then b else c)

/-- The source's _decode_project_path: strip one leading hyphen when
present, replace every remaining hyphen with a slash, prefix a slash. -/
def _decode_project_path (encoded : List Char) : List Char :=
  let stripped := match encoded with
    | c :: rest => if c = '-' then rest else c :: rest
    | [] => []
  '/' :: replaceChar '-' '/' stripped

/-- The source's _encode_project_path: strip leading slashes, replace
every slash with a hyphen, prepend one hyphen. -/
def _encode_project_path (path : List Char) : List Char :=
  '-' :: replaceChar '/' '-' (lstripSlash path)

/-- The Session dataclass. Fields annotated str that receive raw index
values are typed JVal because the source stores whatever dynamic value the
index supplied; session_id is a list of characters because every modelled
code path that builds a Session slices it first (a non-string id raises
before construction). The fields the modelled code never populates keep
their dataclass defaults and the float field cost is omitted. -/
structure Session where
  session_id : List Char
  project_path : JVal
  created : PyDateTime
  modified : PyDateTime
  custom_title : JVal := JVal.s []
  first_prompt : JVal := JVal.s []
  message_count : JVal := JVal.n 0
  model : List Char := []
  git_branch : JVal := JVal.s []
  is_unindexed : Bool := false
  is_archived : Bool := false
  notes : List Char := []
  deriving DecidableEq

/-- Session.display_name. Slicing first_prompt with [:50] and taking len
raise TypeError when the dynamic value is not a string, hence the Except
result; the final branch formats the first eight characters of the id in
square brackets. -/
def display_name (sess : Session) : Except PyErr JVal :=
  if jtruthy sess.custom_title then Except.ok sess.custom_title
  else if jtruthy sess.first_prompt then
    match sess.first_prompt with
    | JVal.s v =>
      Except.ok (JVal.s (if v.length > 50 then v.take 50 ++ ("...".toList) else v.take 50))
    | _ => Except.error PyErr.typeError
  else Except.ok (JVal.s ('[' :: sess.session_id.take 8 ++ [']']))

/-- The body of _parse_session_entry up to where its try block ends. The
not-session_id guard returns None (not an exception); slicing a non-string
id in the debug log raises TypeError; parsing the timestamps can raise
AttributeError as in parseDatetimeJ; a falsy project path falls back to
the decoded directory name. -/
def entryBody (now : PyDateTime) (entry : Entry) (dirName : List Char) :
    Except PyErr (Option Session) :=
  let sid := selectId entry
  if jtruthy sid = false then Except.ok Option.none
  else
    match sid with
    | JVal.s sidStr =>
      (match parseDatetimeJ now (selectCreated entry) with
       | Except.error e => Except.error e
       | Except.ok created =>
         match (if jtruthy (selectModified entry) then parseDatetimeJ now (selectModified entry)
                else Except.ok created) with
         | Except.error e => Except.error e
         | Except.ok modified =>
           let pp0 := selectPath entry
           Except.ok (some
             { session_id := sidStr,
               project_path := if jtruthy pp0 then pp0 else JVal.s (_decode_project_path dirName),
               created := created, modified := modified,
               custom_title := selectTitle entry, first_prompt := selectPrompt entry,
               message_count := selectCount entry, git_branch := selectBranch entry }))
    | _ => Except.error PyErr.typeError

/-- _parse_session_entry: the except-Exception clause converts any raised
error into None, so one malformed entry never escapes this boundary. -/
def _parse_session_entry (now : PyDateTime) (entry : Entry) (dirName : List Char) :
    Option Session :=
  match entryBody now entry dirName with
  | Except.ok r => r
  | Except.error _ => Option.none

/-- A content block of a log-record message, modelled as a JSON object. -/
abbrev Block := List (List Char × JVal)

/-- A log-record message field: either a plain string or a list of content
blocks, the only two shapes the source inspects. -/
inductive PyMsg where
  | pstr (v : List Char)
  | plist (blocks : List Block)
  deriving DecidableEq

/-- One decoded JSON object from a .jsonl line, restricted to the fields
the source reads: the record type, the cwd field (present or not, with a
possibly-null value), and the message payload. -/
structure LogEntry where
  typ : Option JVal := Option.none
  cwd : Option JVal := Option.none
  message : Option PyMsg := Option.none
  deriving DecidableEq

/-- One line of a .jsonl session log: either malformed JSON, which the
inner except json.JSONDecodeError clause skips, or a JSON object. -/
inductive LogLine where
  | malformed
  | ok (e : LogEntry)
  deriving DecidableEq

/-- Python str() of a dynamic value. -/
def pyStr : JVal → List Char
  | JVal.s v => v
  | JVal.n k => (toString k).toList
  | JVal.none => "None".toList

/-- Truthiness of the message payload: an empty string, an empty list and
an absent field are falsy. -/
def msgTruthy : Option PyMsg → Bool
  | Option.none => false
  | some (PyMsg.pstr v) => !v.isEmpty
  | some (PyMsg.plist l) => !l.isEmpty

/-- msg[0].get of the text field with the empty-string default. -/
def blockGetText (b : Block) : JVal := (b.lookup ("text".toList)).getD (JVal.s [])

/-- The loop state of _parse_session_file over the lines of the file. -/
structure ScanState where
  project_path : JVal
  first_prompt : List Char
  message_count : Nat
  deriving DecidableEq

/-- Source lines 194..196: a record of type summary that carries a cwd key
overwrites the running project path with that value. -/
def summaryStep (e : LogEntry) (st : ScanState) : ScanState :=
  match e.cwd with
  | some c => if e.typ = some (JVal.s kwSummary) then { st with project_path := c } else st
  | Option.none => st

/-- Source lines 200..205: when no first prompt is recorded yet and the
message payload is truthy, extract the first prompt (the first block's
text, stringified, for a list payload, or the plain string), truncated to
100 characters. -/
def userPrompt (e : LogEntry) (st2 : ScanState) : ScanState :=
  if st2.first_prompt = [] ∧ msgTruthy e.message then
    match e.message with
    | some (PyMsg.plist (b :: _)) => { st2 with first_prompt := (pyStr (blockGetText b)).take 100 }
    | some (PyMsg.pstr v) => { st2 with first_prompt := v.take 100 }
    | _ => st2
  else st2

/-- Source lines 198..205: a record of type user increments the message
count and then runs the first-prompt extraction. -/
def userStep (e : LogEntry) (st : ScanState) : ScanState :=
  if e.typ = some (JVal.s kwUser) then
    userPrompt e { st with message_count := st.message_count + 1 }
  else st

/-- One iteration of the line loop of _parse_session_file: a malformed
line is skipped, otherwise the summary check runs and then the user check. -/
def scanLine (st : ScanState) (line : LogLine) : ScanState :=
  match line with
  | LogLine.malformed => st
  | LogLine.ok e => userStep e (summaryStep e st)

/-- The source's _parse_session_file over a modelled .jsonl file: the stem
and the stat times come from the filesystem model, the project path starts
from the decoded directory name, and the line loop folds over the lines.
In the modelled domain the outer except Exception clause never fires, so a
session is always produced. -/
def _parse_session_file (stem : List Char) (ctime mtime : Int) (dirName : List Char)
    (lines : List LogLine) : Option Session :=
  let st0 : ScanState :=
    { project_path := JVal.s (_decode_project_path dirName), first_prompt := [], message_count := 0 }
  let st := lines.foldl scanLine st0
  some { session_id := stem, project_path := st.project_path,
         created := fromtimestamp ctime, modified := fromtimestamp mtime,
         first_prompt := JVal.s st.first_prompt, message_count := JVal.n (st.message_count : Int),
         is_unindexed := true }

/-- The cwd value carried by a line, when that line is a record of type
summary with a cwd key. -/
def cwdOf : LogLine → Option JVal
  | LogLine.malformed => Option.none
  | LogLine.ok e =>
    match e.cwd with
    | some c => if e.typ = some (JVal.s kwSummary) then some c else Option.none
    | Option.none => Option.none

/-- The cwd of the last summary record of the file, if any. -/
def lastCwd : List LogLine → Option JVal
  | [] => Option.none
  | l :: ls =>
    match lastCwd ls with
    | some v => some v
    | Option.none => cwdOf l

/-- The entries (or sessions) value of a decoded index object: either a
list of entry objects, or a non-iterable value over which the for loop of
_load_sessions_from_index raises TypeError. -/
inductive JEntries where
  | notIterable
  | list (l : List Entry)
  deriving DecidableEq

/-- The content of a sessions-index.json file: unreadable or undecodable
(json.JSONDecodeError or IOError, both caught), decodable JSON that is not
an object (data.get then raises AttributeError), or an object with
optional entries and sessions keys. -/
inductive IndexData where
  | malformed
  | nonObject
  | obj (entries : Option JEntries) (sessions : Option JEntries)
  deriving DecidableEq

/-- A .jsonl file of a project directory: its stem (the session id), its
stat times, and its decoded lines. -/
structure JsonlFile where
  stem : List Char
  ctime : Int
  mtime : Int
  lines : List LogLine
  deriving DecidableEq

/-- A project directory: its encoded name, its index file when one
exists, and its .jsonl files. -/
structure ProjectDir where
  name : List Char
  index : Option IndexData
  jsonl : List JsonlFile
  deriving DecidableEq

/-- One item of the projects root: a stray file (skipped by the
is-directory check) or a project directory. -/
inductive FSItem where
  | file (name : List Char)
  | dir (d : ProjectDir)
  deriving DecidableEq

/-- The source's _load_sessions_from_index: a malformed index is caught
and contributes no sessions; JSON that decodes to a non-object raises
AttributeError at data.get and a non-iterable entries value raises
TypeError at the for loop, neither of which the except clause catches;
otherwise every entry is delegated to _parse_session_entry and the
non-null results are collected. -/
def _load_sessions_from_index (now : PyDateTime) (dirName : List Char) :
    IndexData → Except PyErr (List Session)
  | IndexData.malformed => Except.ok []
  | IndexData.nonObject => Except.error PyErr.attributeError
  | IndexData.obj entries sessions =>
    match entries.getD (sessions.getD (JEntries.list [])) with
    | JEntries.notIterable => Except.error PyErr.typeError
    | JEntries.list l => Except.ok (l.filterMap (fun en => _parse_session_entry now en dirName))

/-- The source's _scan_for_sessions: parse every .jsonl file of the
directory and keep the sessions produced. -/
def _scan_for_sessions (d : ProjectDir) : List Session :=
  d.jsonl.filterMap (fun f => _parse_session_file f.stem f.ctime f.mtime d.name f.lines)

/-- The per-directory branch of get_all_sessions: the index file is the
primary source when it exists, otherwise the .jsonl scan fallback runs. -/
def sessionsOfDir (now : PyDateTime) (d : ProjectDir) : Except PyErr (List Session) :=
  match d.index with
  | some idx => _load_sessions_from_index now d.name idx
  | Option.none => Except.ok (_scan_for_sessions d)

/-- The directory loop of get_all_sessions: stray files are skipped and
each directory's sessions are appended; an uncaught exception from a
directory aborts the whole loop. -/
def gatherSessions (now : PyDateTime) : List FSItem → Except PyErr (List Session)
  | [] => Except.ok []
  | FSItem.file _ :: rest => gatherSessions now rest
  | FSItem.dir d :: rest =>
    match sessionsOfDir now d with
    | Except.error e => Except.error e
    | Except.ok found =>
      match gatherSessions now rest with
      | Except.error e => Except.error e
      | Except.ok others => Except.ok (found ++ others)

/-- One insertion step of a stable descending sort on the modified key. -/
def insertByModified (s : Session) : List Session → List Session
  | [] => [s]
  | t :: ts =>
    if dtKey t.modified ≤ dtKey s.modified then s :: t :: ts else t :: insertByModified s ts

/-- Python list.sort with key modified and reverse True is a stable
descending sort; it is modelled by a stable insertion sort, which is
extensionally the same list. -/
def sortByModified (l : List Session) : List Session := l.foldr insertByModified []

/-- The source's get_all_sessions: a missing projects root yields the
empty list, otherwise the directory loop runs and the collected sessions
are sorted by modified, newest first. -/
def get_all_sessions (now : PyDateTime) (root : Option (List FSItem)) :
    Except PyErr (List Session) :=
  match root with
  | Option.none => Except.ok []
  | some items =>
    match gatherSessions now items with
    | Except.error e => Except.error e
    | Except.ok l => Except.ok (sortByModified l)

/-- TerminalAdapter.get_profile_name: the fixed Claude- marker followed by
the session name. -/
def get_profile_name (session_name : List Char) : List Char :=
  ("Claude-".toList) ++ session_name

/-- TerminalAdapter.profile_exists relative to an adapter's list_profiles
result, which the model takes as an abstract list of names. -/
def profile_exists (profiles : List (List Char)) (name : List Char) : Bool :=
  profiles.contains name

/-- The decimal text of the loop counter, as the f-string formats it. -/
def natSuffix (counter : Nat) : List Char := (toString counter).toList

/-- The message of the RuntimeError raised at the safety limit. -/
def namingErrMsg : List Char := "Could not find unique name for ".toList

/-- The numbered-suffix loop of get_unique_profile_name. The source starts
counter at 1 and raises once counter exceeds 100, that is, after the
candidates with suffixes 1..100 have all been found taken; the remaining
argument counts the iterations still allowed, 101 minus counter. -/
def uniqueNameFrom (profiles : List (List Char)) (base_name name : List Char) :
    Nat → Nat → Except (List Char) (List Char)
  | _, 0 => Except.error (namingErrMsg ++ base_name)
  | counter, r + 1 =>
    let candidate := name ++ natSuffix counter
    if profile_exists profiles candidate = false then Except.ok candidate
    else uniqueNameFrom profiles base_name name (counter + 1) r

/-- TerminalAdapter.get_unique_profile_name: the prefixed name itself when
free, otherwise the suffix loop; the error value models the RuntimeError
raised at the safety limit. -/
def get_unique_profile_name (profiles : List (List Char)) (base_name : List Char) :
    Except (List Char) (List Char) :=
  let name := get_profile_name base_name
  if profile_exists profiles name = false then Except.ok name
  else uniqueNameFrom profiles base_name name 1 100

/-- The Appearance section name of a Konsole profile. -/
def kwAppearance : List Char := "Appearance".toList

/-- The Wallpaper key of the Appearance section. -/
def kwWallpaper : List Char := "Wallpaper".toList

/-- The WallpaperOpacity key of the Appearance section. -/
def kwWallpaperOpacity : List Char := "WallpaperOpacity".toList

/-- The WallpaperFlipType key of the Appearance section. -/
def kwWallpaperFlipType : List Char := "WallpaperFlipType".toList

/-- The WallpaperAnchor key of the Appearance section. -/
def kwWallpaperAnchor : List Char := "WallpaperAnchor".toList

/-- One section of a Konsole .profile file: an ordered key-value map. -/
abbrev KSection := List (List Char × List Char)

/-- A parsed Konsole .profile file: an ordered map from section name to
section, as configparser keeps it. -/
abbrev KConfig := List (List Char × KSection)

/-- The Konsole profile directory: a map from full profile file stem (the
prefixed name) to its parsed config. -/
abbrev KStore := List (List Char × KConfig)

/-- Assignment sec[k] = v for an ordered map: replace the first binding of
k, otherwise append. -/
def setKey (k v : List Char) : KSection → KSection
  | [] => [(k, v)]
  | (k0, v0) :: rest => if k0 = k then (k, v) :: rest else (k0, v0) :: setKey k v rest

/-- Assignment config[secName][k] = v inside an existing section. -/
def setSectionKey (secName k v : List Char) : KConfig → KConfig
  | [] => []
  | (s0, sec) :: rest =>
    if s0 = secName then (s0, setKey k v sec) :: rest
    else (s0, sec) :: setSectionKey secName k v rest

/-- The if-Appearance-not-in-config guard: add an empty section when the
named section is absent. -/
def ensureSection (secName : List Char) (cfg : KConfig) : KConfig :=
  if (cfg.lookup secName).isSome then cfg else cfg ++ [(secName, [])]

/-- The Appearance rewrite performed by KonsoleAdapter.set_background:
ensure the section, then set the wallpaper path and the three fixed
wallpaper display settings. -/
def konsoleBgUpdate (cfg : KConfig) (image_path : List Char) : KConfig :=
  let cfg1 := ensureSection kwAppearance cfg
  let cfg2 := setSectionKey kwAppearance kwWallpaper image_path cfg1
  let cfg3 := setSectionKey kwAppearance kwWallpaperOpacity ("0.3".toList) cfg2
  let cfg4 := setSectionKey kwAppearance kwWallpaperFlipType ("NoFlip".toList) cfg3
  setSectionKey kwAppearance kwWallpaperAnchor ("Center".toList) cfg4

/-- Writing a profile file back: replace the binding of the stem. -/
def storeSet (k : List Char) (v : KConfig) : KStore → KStore
  | [] => [(k, v)]
  | (k0, v0) :: rest => if k0 = k then (k, v) :: rest else (k0, v0) :: storeSet k v rest

/-- KonsoleAdapter.set_background over the modelled profile directory:
false and no change when the profile file does not exist, otherwise the
config is rewritten as in konsoleBgUpdate and written back. -/
def konsole_set_background (store : KStore) (profile_name image_path : List Char) :
    Bool × KStore :=
  let full := get_profile_name profile_name
  match store.lookup full with
  | Option.none => (false, store)
  | some cfg => (true, storeSet full (konsoleBgUpdate cfg image_path) store)

/-- DirectAdapter.set_background: a no-op that reports success. -/
def direct_set_background (_profile_name _image_path : List Char) : Bool := true

/-- DirectAdapter.list_profiles: the direct adapter has no profiles. -/
def direct_list_profiles : List (List Char) := []

/-- Lookup of config[secName][k], None when the section or key is absent. -/
def sectionLookup (cfg : KConfig) (secName k : List Char) : Option (List Char) :=
  (cfg.lookup secName).bind (fun sec => sec.lookup k)

/-- A fixed wall-clock instant used by the concrete evaluations. -/
def nowEx : PyDateTime := ⟨2024, 1, 1, 0, 0, 0, Option.none⟩

/-- An index entry whose messageCount is present but zero while the later
synonym message_count carries 5. -/
def entryC4 : Entry :=
  [(("messageCount".toList), JVal.n 0),
   (("message_count".toList), JVal.n 5),
   (("sessionId".toList), JVal.s ("abc".toList))]

/-- A summary log record carrying the given cwd. -/
def sumLine (cwd : List Char) : LogLine :=
  LogLine.ok { typ := some (JVal.s ("summary".toList)), cwd := some (JVal.s cwd) }

/-- A Konsole store holding one profile whose wallpaper opacity was set to
a non-default value. -/
def konsoleStoreC5 : KStore :=
  [(("Claude-p".toList),
    [(("General".toList), [(("Name".toList), ("Claude-p".toList))]),
     (("Appearance".toList), [(("WallpaperOpacity".toList), ("0.9".toList))])])]

/-- A projects root with one directory holding two unindexed log files. -/
def fsEx : Option (List FSItem) :=
  some [FSItem.dir
    { name := ("-home-alice-proj".toList), index := Option.none,
      jsonl := [{ stem := ("a".toList), ctime := 0, mtime := 5, lines := [] },
                { stem := ("b".toList), ctime := 0, mtime := 9, lines := [] }] }]

/-- The session list discovered from fsEx. -/
def sessionsEx : List Session :=
  match get_all_sessions nowEx fsEx with
  | Except.ok l => l
  | Except.error _ => []

/-- A session with a custom title. -/
def sessEx1 : Session :=
  { session_id := ("abcdefgh0000".toList), project_path := JVal.s [],
    created := nowEx, modified := nowEx, custom_title := JVal.s ("Fix bug".toList) }

/-- A session with only a short first prompt. -/
def sessEx2 : Session :=
  { session_id := ("abcdefgh0000".toList), project_path := JVal.s [],
    created := nowEx, modified := nowEx, first_prompt := JVal.s ("hi".toList) }

/-- A session with neither a custom title nor a first prompt. -/
def sessEx3 : Session :=
  { session_id := ("abcdefgh0000".toList), project_path := JVal.s [],
    created := nowEx, modified := nowEx }

/-- Any name the suffix loop returns is free in the profile list. -/
theorem uniqueNameFrom_ok_not_exists (profiles : List (List Char)) (base nm : List Char) :
    ∀ r counter n, uniqueNameFrom profiles base nm counter r = Except.ok n →
      profile_exists profiles n = false := by
  intro r
  induction r with
  | zero => intro counter n h; simp [uniqueNameFrom] at h
  | succ q ih =>
    intro counter n h
    unfold uniqueNameFrom at h
    by_cases hc : profile_exists profiles (nm ++ natSuffix counter) = false
    · simp only [hc, if_pos] at h
      injection h with h
      rw [← h]
      exact hc
    · simp only [hc, if_neg, if_false] at h
      exact ih _ _ h

/-- The suffix loop returns the first free candidate inside its window. -/
theorem uniqueNameFrom_finds (profiles : List (List Char)) (base nm : List Char) :
    ∀ r counter k, counter ≤ k → k < counter + r →
      (∀ i, counter ≤ i → i < k → profile_exists profiles (nm ++ natSuffix i) = true) →
      profile_exists profiles (nm ++ natSuffix k) = false →
      uniqueNameFrom profiles base nm counter r = Except.ok (nm ++ natSuffix k) := by
  intro r
  induction r with
  | zero => intro counter k h1 h2 _ _; omega
  | succ q ih =>
    intro counter k h1 h2 hall hfree
    unfold uniqueNameFrom
    by_cases hc : counter = k
    · subst hc; simp [hfree]
    · have hlt : counter < k := lt_of_le_of_ne h1 hc
      have htaken := hall counter le_rfl hlt
      simp [htaken]
      exact ih (counter + 1) k hlt (by omega) (fun i hi1 hi2 => hall i (by omega) hi2) hfree

/-- When every candidate of the window is taken, the loop raises. -/
theorem uniqueNameFrom_exhausts (profiles : List (List Char)) (base nm : List Char) :
    ∀ r counter,
      (∀ i, counter ≤ i → i < counter + r →
        profile_exists profiles (nm ++ natSuffix i) = true) →
      uniqueNameFrom profiles base nm counter r = Except.error (namingErrMsg ++ base) := by
  intro r
  induction r with
  | zero => intro counter _; rfl
  | succ q ih =>
    intro counter hall
    unfold uniqueNameFrom
    have htaken := hall counter le_rfl (by omega)
    simp [htaken]
    exact ih (counter + 1) (fun i hi1 hi2 => hall i (by omega) (by omega))

/-- C1: for every adapter profile list and base name, get_unique_profile_name
never returns a name for which profile_exists holds; it returns the
prefixed profile name when that is free, otherwise the first free
candidate with an integer suffix starting at 1; and when the base name and
all one hundred suffixed candidates are taken it fails with the
name-exhaustion error instead of returning a name. -/
theorem C1_unique_profile_name (profiles : List (List Char)) (base : List Char) :
    (∀ n, get_unique_profile_name profiles base = Except.ok n →
        profile_exists profiles n = false)
    ∧ (profile_exists profiles (get_profile_name base) = false →
        get_unique_profile_name profiles base = Except.ok (get_profile_name base))
    ∧ (∀ k, 1 ≤ k → k ≤ 100 →
        profile_exists profiles (get_profile_name base) = true →
        (∀ i, 1 ≤ i → i < k →
          profile_exists profiles (get_profile_name base ++ natSuffix i) = true) →
        profile_exists profiles (get_profile_name base ++ natSuffix k) = false →
        get_unique_profile_name profiles base
          = Except.ok (get_profile_name base ++ natSuffix k))
    ∧ (profile_exists profiles (get_profile_name base) = true →
        (∀ i, 1 ≤ i → i ≤ 100 →
          profile_exists profiles (get_profile_name base ++ natSuffix i) = true) →
        get_unique_profile_name profiles base
          = Except.error (namingErrMsg ++ base)) := by
  refine ⟨?_, ?_, ?_, ?_⟩
  · intro n h
    unfold get_unique_profile_name at h
    by_cases hb : profile_exists profiles (get_profile_name base) = false
    · simp [hb] at h
      rw [← h]
      exact hb
    · simp [hb] at h
      exact uniqueNameFrom_ok_not_exists profiles base _ 100 1 n h
  · intro hb
    unfold get_unique_profile_name
    simp [hb]
  · intro k hk1 hk100 hb hall hfree
    unfold get_unique_profile_name
    simp [hb]
    exact uniqueNameFrom_finds profiles base _ 100 1 k hk1 (by omega)
      (fun i hi1 hi2 => hall i hi1 hi2) hfree
  · intro hb hall
    unfold get_unique_profile_name
    simp [hb]
    exact uniqueNameFrom_exhausts profiles base _ 100 1
      (fun i hi1 hi2 => hall i hi1 (by omega))

/-- Witness for C1 at a concrete profile list: the base name is taken, so
the first suffixed candidate is returned. -/
theorem C1_unique_profile_name_witness :
    get_unique_profile_name [("Claude-x".toList)] ("x".toList)
      = Except.ok ("Claude-x1".toList) := by
  have h := (C1_unique_profile_name [("Claude-x".toList)] ("x".toList)).2.2.1 1
    (le_refl 1) (by decide) (by decide)
    (fun i hi1 hi2 => absurd (lt_of_le_of_lt hi1 hi2) (lt_irrefl 1))
    (by decide)
  have e : get_profile_name ("x".toList) ++ natSuffix 1 = ("Claude-x1".toList) := by decide
  rw [e] at h
  exact h

/-- A list whose head is not a slash is unchanged by lstrip. -/
theorem lstripSlash_of_head (t : List Char) (h : t.head? ≠ some '/') : lstripSlash t = t := by
  cases t with
  | nil => rfl
  | cons c cs =>
    have hc : c ≠ '/' := by
      intro hc
      exact h (by simp [List.head?, hc])
    simp [lstripSlash, hc]

/-- Encoding then decoding is the identity on hyphen-free text. -/
theorem replaceChar_roundtrip (t : List Char) (h : ('-' : Char) ∉ t) :
    replaceChar '-' '/' (replaceChar '/' '-' t) = t := by
  induction t with
  | nil => rfl
  | cons c cs ih =>
    have hc : c ≠ '-' := fun hcc => h (by rw [hcc]; exact List.mem_cons_self _ _)
    have hcs : ('-' : Char) ∉ cs := fun hm => h (List.mem_cons_of_mem _ hm)
    by_cases hcf : c = '/'
    · subst hcf
      simp only [replaceChar, List.map_cons, if_pos rfl] at ih ⊢
      exact congrArg (fun l => '/' :: l) (ih hcs)
    · simp only [replaceChar, List.map_cons, if_neg hcf, if_neg hc] at ih ⊢
      exact congrArg (fun l => c :: l) (ih hcs)

/-- C2 counterexample: the absolute path with a doubled leading separator
contains no hyphen, yet the round trip collapses it, so the claim as
stated fails at this input. -/
theorem C2_roundtrip_counterexample :
    _decode_project_path (_encode_project_path ("//a".toList)) ≠ ("//a".toList) := by decide

/-- C2 amended: for every path formed of a single leading slash followed
by text that neither starts with a slash nor contains a hyphen, decoding
the encoding returns the original path. -/
theorem C2_roundtrip_amended (t : List Char) (h1 : t.head? ≠ some '/')
    (h2 : ('-' : Char) ∉ t) :
    _decode_project_path (_encode_project_path ('/' :: t)) = '/' :: t := by
  have hstep : lstripSlash ('/' :: t) = t := by
    have h0 : lstripSlash ('/' :: t) = lstripSlash t := by simp [lstripSlash]
    rw [h0]
    exact lstripSlash_of_head t h1
  unfold _encode_project_path
  rw [hstep]
  unfold _decode_project_path
  show ('/' :: replaceChar '-' '/' (if ('-' : Char) = '-' then replaceChar '/' '-' t
        else '-' :: replaceChar '/' '-' t)) = '/' :: t
  rw [if_pos rfl]
  exact congrArg (fun l => '/' :: l) (replaceChar_roundtrip t h2)

/-- Witness for C2 at a concrete path. -/
theorem C2_roundtrip_amended_witness :
    _decode_project_path (_encode_project_path ("/home/user/project".toList))
      = ("/home/user/project".toList) := by
  have h := C2_roundtrip_amended ("home/user/project".toList) (by decide) (by decide)
  have e : (('/' : Char) :: ("home/user/project".toList)) = ("/home/user/project".toList) := by
    decide
  rw [e] at h
  exact h

/-- The first-prompt extraction never changes the running project path. -/
theorem userPrompt_project_path (e : LogEntry) (st : ScanState) :
    (userPrompt e st).project_path = st.project_path := by
  unfold userPrompt
  split
  · split <;> rfl
  · rfl

/-- The user-record step never changes the running project path. -/
theorem userStep_project_path (e : LogEntry) (st : ScanState) :
    (userStep e st).project_path = st.project_path := by
  unfold userStep
  split
  · rw [userPrompt_project_path]
  · rfl

/-- The summary-record step rewrites the running project path exactly when
the line is a summary record with a cwd key. -/
theorem summaryStep_project_path (e : LogEntry) (st : ScanState) :
    (summaryStep e st).project_path = (cwdOf (LogLine.ok e)).getD st.project_path := by
  show (summaryStep e st).project_path = (match e.cwd with
    | some c => if e.typ = some (JVal.s kwSummary) then some c else Option.none
    | Option.none => Option.none).getD st.project_path
  unfold summaryStep
  cases e.cwd with
  | none => rfl
  | some c =>
    by_cases ht : e.typ = some (JVal.s kwSummary) <;> simp [ht]

/-- One scan step rewrites the running project path exactly when the line
carries a summary cwd. -/
theorem scanLine_project_path (st : ScanState) (l : LogLine) :
    (scanLine st l).project_path = (cwdOf l).getD st.project_path := by
  cases l with
  | malformed => rfl
  | ok e =>
    show (userStep e (summaryStep e st)).project_path = _
    rw [userStep_project_path, summaryStep_project_path]

/-- Folding the scan over the lines leaves the cwd of the last summary
record in the project-path slot, or the initial value when there is none. -/
theorem foldl_scan_project_path (lines : List LogLine) :
    ∀ st : ScanState,
      (lines.foldl scanLine st).project_path = (lastCwd lines).getD st.project_path := by
  induction lines with
  | nil => intro st; rfl
  | cons l ls ih =>
    intro st
    have hl : lastCwd (l :: ls)
        = (match lastCwd ls with | some v => some v | Option.none => cwdOf l) := rfl
    rw [List.foldl_cons, ih, hl]
    cases lastCwd ls with
    | none => exact scanLine_project_path st l
    | some v => rfl

/-- C3 counterexample: a log file with two summary records keeps the last
cwd, not the first, so the claim as stated fails at this input. -/
theorem C3_first_summary_counterexample :
    (_parse_session_file ("xyz".toList) 0 0 ("-home-alice-proj".toList)
        [sumLine ("/a".toList), sumLine ("/b".toList)]).map Session.project_path
      = some (JVal.s ("/b".toList))
    ∧ JVal.s ("/b".toList) ≠ JVal.s ("/a".toList) := by
  refine ⟨by decide, by decide⟩

/-- C3 amended: parse_log_file derives the session's project_path from the
LAST record of type summary that carries a cwd field; when no such record
exists, including when every line is malformed JSON, it falls back to the
path decoded from the containing directory's name. -/
theorem C3_project_path_amended (stem : List Char) (ctime mtime : Int) (dirName : List Char)
    (lines : List LogLine) :
    (_parse_session_file stem ctime mtime dirName lines).map Session.project_path
      = some ((lastCwd lines).getD (JVal.s (_decode_project_path dirName))) := by
  unfold _parse_session_file
  show some ((lines.foldl scanLine
      { project_path := JVal.s (_decode_project_path dirName), first_prompt := [],
        message_count := 0 }).project_path)
    = some ((lastCwd lines).getD (JVal.s (_decode_project_path dirName)))
  rw [foldl_scan_project_path]

/-- A three-key or-chain takes the first truthy value, with dict.get and
the default on the last key. -/
theorem pyOr3_spec (e : Entry) (k1 k2 k3 : List Char) (d : JVal) :
    pyOr (pyOr (jget e k1) (jget e k2)) (jgetD e k3 d) = specSelect e [k1, k2, k3] d := by
  by_cases h1 : jtruthy (jget e k1) <;> by_cases h2 : jtruthy (jget e k2) <;>
    simp [specSelect, pyOr, h1, h2]

/-- A two-key or-chain takes the first truthy value, with dict.get and the
default on the last key. -/
theorem pyOr2_spec (e : Entry) (k1 k2 : List Char) (d : JVal) :
    pyOr (jget e k1) (jgetD e k2 d) = specSelect e [k1, k2] d := by
  by_cases h1 : jtruthy (jget e k1) <;> simp [specSelect, pyOr, h1]

/-- C4 counterexample: messageCount is present with value 0 in the entry,
yet the session's count field receives the later synonym's value 5 — an
earlier present key does not win when its value is falsy. -/
theorem C4_first_present_counterexample :
    (_parse_session_entry nowEx entryC4 ("d".toList)).map Session.message_count
      = some (JVal.n 5)
    ∧ JVal.n 5 ≠ JVal.n 0 := by
  refine ⟨by decide, by decide⟩

/-- C4 amended: within each synonym group the resolved value is that of
the first key in the listed order whose stored value is truthy; a key that
is present with a falsy value (empty string, zero, null) is skipped; when
no key has a truthy value, the last key is read with dict.get and the
group default applies. -/
theorem C4_synonym_precedence_amended (entry : Entry) :
    selectId entry = specSelect entry
        [("sessionId".toList), ("session_id".toList), ("id".toList)] (JVal.s [])
    ∧ selectCreated entry = specSelect entry
        [("created".toList), ("createdAt".toList), ("timestamp".toList)] (JVal.s [])
    ∧ selectModified entry = specSelect entry
        [("modified".toList), ("modifiedAt".toList), ("lastModified".toList)] (JVal.s [])
    ∧ selectPath entry = specSelect entry
        [("projectPath".toList), ("project_path".toList), ("cwd".toList)] (JVal.s [])
    ∧ selectTitle entry = specSelect entry
        [("summary".toList), ("customTitle".toList), ("title".toList)] (JVal.s [])
    ∧ selectBranch entry = specSelect entry
        [("gitBranch".toList), ("git_branch".toList)] (JVal.s [])
    ∧ selectCount entry = specSelect entry
        [("messageCount".toList), ("message_count".toList)] (JVal.n 0) := by
  refine ⟨?_, ?_, ?_, ?_, ?_, ?_, ?_⟩ <;>
    first
      | exact pyOr3_spec entry _ _ _ _
      | exact pyOr2_spec entry _ _ _

/-- C10: display_name returns the custom title when it is a non-empty
string; otherwise, for a non-empty string first prompt, its first fifty
characters with an ellipsis appended exactly when the prompt is longer
than fifty characters; otherwise the first eight characters of the
session id enclosed in square brackets. -/
theorem C10_display_name (sess : Session) :
    (∀ v, sess.custom_title = JVal.s v → v ≠ [] →
        display_name sess = Except.ok (JVal.s v))
    ∧ (∀ v, jtruthy sess.custom_title = false → sess.first_prompt = JVal.s v → v ≠ [] →
        display_name sess
          = Except.ok (JVal.s (if v.length > 50 then v.take 50 ++ ("...".toList) else v)))
    ∧ (jtruthy sess.custom_title = false → jtruthy sess.first_prompt = false →
        display_name sess = Except.ok (JVal.s ('[' :: sess.session_id.take 8 ++ [']']))) := by
  refine ⟨?_, ?_, ?_⟩
  · intro v hv hne
    unfold display_name
    rw [hv]
    have ht : jtruthy (JVal.s v) = true := by simp [jtruthy, hne]
    simp [ht]
  · intro v hct hv hne
    unfold display_name
    rw [hct, hv]
    have ht : jtruthy (JVal.s v) = true := by simp [jtruthy, hne]
    simp only [Bool.false_eq_true, if_false, ht, if_true]
    by_cases hlen : v.length > 50
    · simp [hlen]
    · simp [hlen, List.take_of_length_le (Nat.le_of_not_lt hlen)]
  · intro hct hfp
    unfold display_name
    rw [hct, hfp]
    simp

/-- A dict.get with a falsy string default is falsy whenever the plain get
observes None. -/
theorem jgetD_falsy_of_none (e : Entry) (k : List Char) (h : jget e k = JVal.none) :
    jtruthy (jgetD e k (JVal.s [])) = false := by
  unfold jget at h
  unfold jgetD
  cases hl : e.lookup k with
  | none => simp [jtruthy]
  | some v =>
    rw [hl] at h
    simp only [Option.getD_some] at h ⊢
    rw [h]
    rfl

/-- C8: parse_index_entry is total at its boundary: when every identifier
synonym get observes None the parser returns no session, not an error; any
exception raised inside the extraction body is caught and converted to no
session; and in particular a truthy non-string identifier, whose slicing
in the debug log raises TypeError, yields no session. -/
theorem C8_entry_parser_total (now : PyDateTime) (entry : Entry) (dirName : List Char) :
    (jget entry kwSessionId = JVal.none → jget entry kwSessionIdU = JVal.none →
      jget entry kwId = JVal.none →
      _parse_session_entry now entry dirName = Option.none)
    ∧ (∀ e, entryBody now entry dirName = Except.error e →
        _parse_session_entry now entry dirName = Option.none)
    ∧ (∀ k : Int, selectId entry = JVal.n k → k ≠ 0 →
        _parse_session_entry now entry dirName = Option.none) := by
  refine ⟨?_, ?_, ?_⟩
  · intro h1 h2 h3
    have hd := jgetD_falsy_of_none entry kwId h3
    have hpn : ∀ b : JVal, pyOr JVal.none b = b := fun b => by simp [pyOr, jtruthy]
    have hsid : jtruthy (selectId entry) = false := by
      unfold selectId
      rw [h1, h2, hpn, hpn]
      exact hd
    unfold _parse_session_entry entryBody
    simp [hsid]
  · intro e he
    unfold _parse_session_entry
    rw [he]
  · intro k hk hk0
    have ht : jtruthy (JVal.n k) = true := by simp [jtruthy, hk0]
    unfold _parse_session_entry entryBody
    rw [hk]
    simp [ht]

/-- Witness for C8 at two concrete entries: one with no identifier key at
all, one whose identifier is a nonzero integer. -/
theorem C8_entry_parser_total_witness :
    _parse_session_entry nowEx [] ("d".toList) = Option.none
    ∧ _parse_session_entry nowEx [(kwSessionId, JVal.n 7)] ("d".toList) = Option.none := by
  constructor
  · exact (C8_entry_parser_total nowEx [] ("d".toList)).1 rfl rfl rfl
  · exact (C8_entry_parser_total nowEx [(kwSessionId, JVal.n 7)] ("d".toList)).2.2 7
      (by decide) (by decide)

/-- replaceZ is the identity on text without a Z. -/
theorem replaceZ_of_not_mem (t : List Char) (h : ('Z' : Char) ∉ t) : replaceZ t = t := by
  induction t with
  | nil => rfl
  | cons c cs ih =>
    have hc : c ≠ 'Z' := fun hcc => h (by rw [hcc]; exact List.mem_cons_self _ _)
    have hcs : ('Z' : Char) ∉ cs := fun hm => h (List.mem_cons_of_mem _ hm)
    simp [replaceZ, hc, ih hcs]

/-- endsWithZ over an append with a nonempty right part only looks at the
right part. -/
theorem endsWithZ_append (s : List Char) (c : Char) (t : List Char) :
    endsWithZ (s ++ c :: t) = endsWithZ (c :: t) := by
  induction s with
  | nil => rfl
  | cons a s ih =>
    cases s with
    | nil => rfl
    | cons b s2 => exact ih

/-- endsWithZ is false on text without a Z. -/
theorem endsWithZ_of_not_mem (t : List Char) (h : ('Z' : Char) ∉ t) : endsWithZ t = false := by
  induction t with
  | nil => rfl
  | cons c cs ih =>
    cases cs with
    | nil =>
      have hc : c ≠ 'Z' := fun hcc => h (by rw [hcc]; exact List.mem_cons_self _ _)
      simp [endsWithZ, hc]
    | cons b cs2 =>
      have hm : ('Z' : Char) ∉ b :: cs2 := fun hmm => h (List.mem_cons_of_mem _ hmm)
      exact ih hm

/-- The Z preprocessing is the identity on text without a Z. -/
theorem zTransform_of_not_mem (t : List Char) (h : ('Z' : Char) ∉ t) : zTransform t = t := by
  simp [zTransform, endsWithZ_of_not_mem t h, replaceZ_of_not_mem t h]

/-- replaceZ distributes over append. -/
theorem replaceZ_append (s t : List Char) : replaceZ (s ++ t) = replaceZ s ++ replaceZ t := by
  induction s with
  | nil => rfl
  | cons c cs ih => simp [replaceZ, ih, List.append_assoc]

/-- The Z preprocessing rewrites a trailing Z into the zero offset. -/
theorem zTransform_concat_z (t : List Char) (h : ('Z' : Char) ∉ t) :
    zTransform (t ++ ['Z']) = t ++ ("+00:00".toList) := by
  unfold zTransform
  have he : endsWithZ (t ++ ['Z']) = true := by
    rw [endsWithZ_append t 'Z' []]
    rfl
  rw [he]
  simp only [if_true]
  rw [List.dropLast_concat]
  rw [replaceZ_append, replaceZ_of_not_mem t h]
  rw [show replaceZ ("+00:00".toList) = ("+00:00".toList) from by decide]

/-- The Z preprocessing leaves the explicit zero offset alone. -/
theorem zTransform_concat_plus (t : List Char) (h : ('Z' : Char) ∉ t) :
    zTransform (t ++ ("+00:00".toList)) = t ++ ("+00:00".toList) := by
  have hm : ('Z' : Char) ∉ (t ++ ("+00:00".toList)) := by
    intro hmm
    rcases List.mem_append.1 hmm with hin | hin
    · exact h hin
    · exact absurd hin (by decide)
  exact zTransform_of_not_mem _ hm

/-- C9: parse_instant is total on string inputs: the empty string yields
now; text that the modelled fromisoformat accepts (and that carries no Z)
yields exactly the parsed instant; appending a trailing literal Z parses
the same as appending the explicit zero offset; and every input whose
preprocessed form fromisoformat rejects yields now instead of an error. -/
theorem C9_parse_datetime_total (now : PyDateTime) :
    _parse_datetime now [] = now
    ∧ (∀ t d, ('Z' : Char) ∉ t → fromisoformat t = some d → _parse_datetime now t = d)
    ∧ (∀ t, ('Z' : Char) ∉ t →
        _parse_datetime now (t ++ ['Z']) = _parse_datetime now (t ++ ("+00:00".toList)))
    ∧ (∀ v, fromisoformat (zTransform v) = Option.none → _parse_datetime now v = now) := by
  refine ⟨rfl, ?_, ?_, ?_⟩
  · intro t d hz hf
    cases t with
    | nil =>
      rw [show fromisoformat ([] : List Char) = Option.none from rfl] at hf
      exact Option.noConfusion hf
    | cons c cs =>
      unfold _parse_datetime
      rw [if_neg (by simp)]
      rw [zTransform_of_not_mem _ hz, hf]
  · intro t hz
    unfold _parse_datetime
    rw [if_neg (by simp : ¬(t ++ ['Z'] = []))]
    rw [if_neg (by simp : ¬(t ++ ("+00:00".toList) = []))]
    rw [zTransform_concat_z t hz, zTransform_concat_plus t hz]
  · intro v hf
    unfold _parse_datetime
    by_cases hv : v = []
    · rw [if_pos hv]
    · rw [if_neg hv, hf]

/-- Witness for C9 at a concrete well-formed instant and a concrete
malformed input. -/
theorem C9_parse_datetime_total_witness :
    _parse_datetime nowEx ("2024-03-05T06:07:08".toList)
      = ⟨2024, 3, 5, 6, 7, 8, Option.none⟩
    ∧ _parse_datetime nowEx ("garbage".toList) = nowEx := by
  constructor
  · exact (C9_parse_datetime_total nowEx).2.1 ("2024-03-05T06:07:08".toList)
      ⟨2024, 3, 5, 6, 7, 8, Option.none⟩ (by decide) (by decide)
  · exact (C9_parse_datetime_total nowEx).2.2.2 ("garbage".toList) (by decide)

/-- Lookup over an append tries the left part first. -/
theorem lookup_append {β : Type} (k : List Char) (l1 l2 : List (List Char × β)) :
    (l1 ++ l2).lookup k = (match l1.lookup k with
      | some v => some v
      | Option.none => l2.lookup k) := by
  induction l1 with
  | nil => rfl
  | cons p rest ih =>
    obtain ⟨k0, v0⟩ := p
    simp only [List.cons_append, List.lookup]
    by_cases hk : (k == k0) = true
    · simp [hk]
    · simp [hk, ih]

/-- Assignment writes the key. -/
theorem lookup_setKey_self (k v : List Char) (sec : KSection) :
    (setKey k v sec).lookup k = some v := by
  induction sec with
  | nil => simp [setKey, List.lookup]
  | cons p rest ih =>
    obtain ⟨k0, v0⟩ := p
    unfold setKey
    by_cases hk : k0 = k
    · simp [hk, List.lookup]
    · have hb : (k == k0) = false := beq_eq_false_iff_ne.mpr (fun hkk => hk hkk.symm)
      simp [hk, List.lookup, hb, ih]

/-- Assignment leaves every other key alone. -/
theorem lookup_setKey_other (k v kq : List Char) (sec : KSection) (h : kq ≠ k) :
    (setKey k v sec).lookup kq = sec.lookup kq := by
  have hb : (kq == k) = false := beq_eq_false_iff_ne.mpr h
  induction sec with
  | nil => simp [setKey, List.lookup, hb]
  | cons p rest ih =>
    obtain ⟨k0, v0⟩ := p
    unfold setKey
    by_cases hk : k0 = k
    · subst hk
      simp [List.lookup, hb]
    · simp [hk, List.lookup, ih]

/-- Section assignment rewrites exactly the named section. -/
theorem lookup_setSectionKey_self (sn k v : List Char) (cfg : KConfig) :
    (setSectionKey sn k v cfg).lookup sn = (cfg.lookup sn).map (setKey k v) := by
  induction cfg with
  | nil => rfl
  | cons p rest ih =>
    obtain ⟨s0, sec⟩ := p
    unfold setSectionKey
    by_cases hs : s0 = sn
    · subst hs
      simp [List.lookup]
    · have hb : (sn == s0) = false := beq_eq_false_iff_ne.mpr (fun hss => hs hss.symm)
      simp [hs, List.lookup, hb, ih]

/-- Section assignment leaves every other section alone. -/
theorem lookup_setSectionKey_other (sn k v s : List Char) (cfg : KConfig) (h : s ≠ sn) :
    (setSectionKey sn k v cfg).lookup s = cfg.lookup s := by
  have hb : (s == sn) = false := beq_eq_false_iff_ne.mpr h
  induction cfg with
  | nil => rfl
  | cons p rest ih =>
    obtain ⟨s0, sec⟩ := p
    unfold setSectionKey
    by_cases hs : s0 = sn
    · subst hs
      simp [List.lookup, hb]
    · simp [hs, List.lookup, ih]

/-- Ensuring a section makes it present, empty when it was absent. -/
theorem lookup_ensureSection_self (sn : List Char) (cfg : KConfig) :
    (ensureSection sn cfg).lookup sn = some ((cfg.lookup sn).getD []) := by
  unfold ensureSection
  by_cases hl : (cfg.lookup sn).isSome
  · rw [if_pos hl]
    obtain ⟨sec, hsec⟩ := Option.isSome_iff_exists.mp hl
    simp [hsec]
  · rw [if_neg hl]
    have hnone : cfg.lookup sn = Option.none := Option.not_isSome_iff_eq_none.mp hl
    rw [lookup_append]
    simp [hnone, List.lookup]

/-- Ensuring a section leaves every other section alone. -/
theorem lookup_ensureSection_other (sn s : List Char) (cfg : KConfig) (h : s ≠ sn) :
    (ensureSection sn cfg).lookup s = cfg.lookup s := by
  unfold ensureSection
  by_cases hl : (cfg.lookup sn).isSome
  · rw [if_pos hl]
  · rw [if_neg hl, lookup_append]
    cases hcs : cfg.lookup s with
    | some v => simp [hcs]
    | none =>
      have hb : (s == sn) = false := beq_eq_false_iff_ne.mpr h
      simp [hcs, List.lookup, hb]

/-- Key writes do not change the store's other profiles. -/
theorem lookup_storeSet_self (k : List Char) (v : KConfig) (st : KStore) :
    (storeSet k v st).lookup k = some v := by
  induction st with
  | nil => simp [storeSet, List.lookup]
  | cons p rest ih =>
    obtain ⟨k0, v0⟩ := p
    unfold storeSet
    by_cases hk : k0 = k
    · simp [hk, List.lookup]
    · have hb : (k == k0) = false := beq_eq_false_iff_ne.mpr (fun hkk => hk hkk.symm)
      simp [hk, List.lookup, hb, ih]

/-- Writing one profile leaves every other profile file alone. -/
theorem lookup_storeSet_other (k : List Char) (v : KConfig) (m : List Char) (st : KStore)
    (h : m ≠ k) :
    (storeSet k v st).lookup m = st.lookup m := by
  have hb : (m == k) = false := beq_eq_false_iff_ne.mpr h
  induction st with
  | nil => simp [storeSet, List.lookup, hb]
  | cons p rest ih =>
    obtain ⟨k0, v0⟩ := p
    unfold storeSet
    by_cases hk : k0 = k
    · subst hk
      simp [List.lookup, hb]
    · simp [hk, List.lookup, ih]

/-- The Appearance section after the background rewrite: the four
wallpaper keys written over the previous section content. -/
theorem konsoleBgUpdate_lookup_appearance (cfg : KConfig) (p : List Char) :
    (konsoleBgUpdate cfg p).lookup kwAppearance
      = some (setKey kwWallpaperAnchor ("Center".toList)
          (setKey kwWallpaperFlipType ("NoFlip".toList)
            (setKey kwWallpaperOpacity ("0.3".toList)
              (setKey kwWallpaper p ((cfg.lookup kwAppearance).getD []))))) := by
  unfold konsoleBgUpdate
  simp only [lookup_setSectionKey_self, lookup_ensureSection_self]
  rfl

/-- The background rewrite leaves every section other than Appearance
unchanged. -/
theorem konsoleBgUpdate_other_section (cfg : KConfig) (p s : List Char) (h : s ≠ kwAppearance) :
    (konsoleBgUpdate cfg p).lookup s = cfg.lookup s := by
  unfold konsoleBgUpdate
  rw [lookup_setSectionKey_other _ _ _ _ _ h, lookup_setSectionKey_other _ _ _ _ _ h,
    lookup_setSectionKey_other _ _ _ _ _ h, lookup_setSectionKey_other _ _ _ _ _ h,
    lookup_ensureSection_other _ _ _ h]

/-- The background rewrite leaves every Appearance key other than the four
wallpaper keys unchanged. -/
theorem konsoleBgUpdate_other_key (cfg : KConfig) (p kq : List Char)
    (h1 : kq ≠ kwWallpaper) (h2 : kq ≠ kwWallpaperOpacity)
    (h3 : kq ≠ kwWallpaperFlipType) (h4 : kq ≠ kwWallpaperAnchor) :
    sectionLookup (konsoleBgUpdate cfg p) kwAppearance kq
      = sectionLookup cfg kwAppearance kq := by
  unfold sectionLookup
  rw [konsoleBgUpdate_lookup_appearance]
  simp only [Option.some_bind]
  rw [lookup_setKey_other _ _ _ _ h4, lookup_setKey_other _ _ _ _ h3,
    lookup_setKey_other _ _ _ _ h2, lookup_setKey_other _ _ _ _ h1]
  cases hc : cfg.lookup kwAppearance with
  | some sec => simp [hc]
  | none => simp [hc, List.lookup]

/-- The background rewrite stores the new wallpaper path. -/
theorem konsoleBgUpdate_wallpaper (cfg : KConfig) (p : List Char) :
    sectionLookup (konsoleBgUpdate cfg p) kwAppearance kwWallpaper = some p := by
  unfold sectionLookup
  rw [konsoleBgUpdate_lookup_appearance]
  simp only [Option.some_bind]
  rw [lookup_setKey_other _ _ _ _ (by decide), lookup_setKey_other _ _ _ _ (by decide),
    lookup_setKey_other _ _ _ _ (by decide), lookup_setKey_self]

/-- C5 counterexample: the direct adapter has no profiles at all, yet its
set_background reports success rather than false; and the Konsole adapter
additionally resets a pre-existing WallpaperOpacity value to 0.3, so not
every other field of the descriptor is preserved. The claim as stated
fails at these inputs. -/
theorem C5_set_background_counterexample :
    (direct_set_background ("missing-profile".toList) ("/tmp/x.png".toList) = true
      ∧ direct_list_profiles = [])
    ∧ ((((konsole_set_background konsoleStoreC5 ("p".toList) ("/tmp/x.png".toList)).2).lookup
          ("Claude-p".toList)).map
            (fun cfg => sectionLookup cfg kwAppearance kwWallpaperOpacity)
        = some (some ("0.3".toList)))
    ∧ ((konsoleStoreC5.lookup ("Claude-p".toList)).map
          (fun cfg => sectionLookup cfg kwAppearance kwWallpaperOpacity)
        = some (some ("0.9".toList)))
    ∧ ("0.3".toList) ≠ ("0.9".toList) := by
  refine ⟨⟨rfl, rfl⟩, by decide, by decide, by decide⟩

/-- C5 amended: for the file-backed Konsole adapter, set_background
returns false and changes nothing when the profile file does not exist;
when it exists it returns true, rewrites only that profile, and inside it
rewrites only the four wallpaper keys of the Appearance section (setting
the Wallpaper key to the new image path) while every other section and
every other Appearance key keeps its previous value; the direct adapter's
set_background is a no-op that always reports success. -/
theorem C5_set_background_amended (store : KStore) (n p : List Char) :
    (store.lookup (get_profile_name n) = Option.none →
      konsole_set_background store n p = (false, store))
    ∧ (∀ cfg, store.lookup (get_profile_name n) = some cfg →
        (konsole_set_background store n p).1 = true
        ∧ ((konsole_set_background store n p).2).lookup (get_profile_name n)
            = some (konsoleBgUpdate cfg p)
        ∧ (∀ m, m ≠ get_profile_name n →
            ((konsole_set_background store n p).2).lookup m = store.lookup m)
        ∧ (∀ s, s ≠ kwAppearance → (konsoleBgUpdate cfg p).lookup s = cfg.lookup s)
        ∧ (∀ kq, kq ≠ kwWallpaper → kq ≠ kwWallpaperOpacity → kq ≠ kwWallpaperFlipType →
            kq ≠ kwWallpaperAnchor →
            sectionLookup (konsoleBgUpdate cfg p) kwAppearance kq
              = sectionLookup cfg kwAppearance kq)
        ∧ sectionLookup (konsoleBgUpdate cfg p) kwAppearance kwWallpaper = some p)
    ∧ direct_set_background n p = true := by
  refine ⟨?_, ?_, rfl⟩
  · intro h
    simp only [konsole_set_background]
    rw [h]
  · intro cfg h
    simp only [konsole_set_background]
    rw [h]
    exact ⟨rfl, lookup_storeSet_self _ _ _,
      fun m hm => lookup_storeSet_other _ _ _ _ hm,
      fun s hs => konsoleBgUpdate_other_section cfg p s hs,
      fun kq h1 h2 h3 h4 => konsoleBgUpdate_other_key cfg p kq h1 h2 h3 h4,
      konsoleBgUpdate_wallpaper cfg p⟩

/-- Witness for C5 at an empty store and at a store holding one profile. -/
theorem C5_set_background_amended_witness :
    konsole_set_background [] ("p".toList) ("/i.png".toList) = (false, [])
    ∧ (konsole_set_background konsoleStoreC5 ("p".toList) ("/i.png".toList)).1 = true := by
  constructor
  · exact (C5_set_background_amended [] ("p".toList) ("/i.png".toList)).1 rfl
  · exact ((C5_set_background_amended konsoleStoreC5 ("p".toList) ("/i.png".toList)).2.1
      [(("General".toList), [(("Name".toList), ("Claude-p".toList))]),
       (("Appearance".toList), [(("WallpaperOpacity".toList), ("0.9".toList))])]
      (by decide)).1

/-- Everything in the insertion result is the new element or an old one. -/
theorem mem_insertByModified (s x : Session) (l : List Session)
    (h : x ∈ insertByModified s l) : x = s ∨ x ∈ l := by
  induction l with
  | nil =>
    simp [insertByModified] at h
    exact Or.inl h
  | cons t ts ih =>
    unfold insertByModified at h
    by_cases hc : dtKey t.modified ≤ dtKey s.modified
    · rw [if_pos hc] at h
      simp only [List.mem_cons] at h ⊢
      tauto
    · rw [if_neg hc] at h
      rcases List.mem_cons.mp h with h1 | h1
      · exact Or.inr (h1 ▸ List.mem_cons_self t ts)
      · rcases ih h1 with h2 | h2
        · exact Or.inl h2
        · exact Or.inr (List.mem_cons_of_mem t h2)

/-- Inserting into a descending-sorted list keeps it sorted. -/
theorem pairwise_insertByModified (s : Session) (l : List Session)
    (h : l.Pairwise (fun a b => dtKey b.modified ≤ dtKey a.modified)) :
    (insertByModified s l).Pairwise (fun a b => dtKey b.modified ≤ dtKey a.modified) := by
  induction l with
  | nil => simp [insertByModified]
  | cons t ts ih =>
    unfold insertByModified
    by_cases hc : dtKey t.modified ≤ dtKey s.modified
    · rw [if_pos hc]
      refine List.Pairwise.cons ?_ h
      intro b hb
      rcases List.mem_cons.mp hb with h1 | h1
      · rw [h1]; exact hc
      · exact le_trans ((List.pairwise_cons.mp h).1 b h1) hc
    · rw [if_neg hc]
      refine List.Pairwise.cons ?_ (ih (List.pairwise_cons.mp h).2)
      intro b hb
      rcases mem_insertByModified s b ts hb with h1 | h1
      · rw [h1]
        exact le_of_lt (lt_of_not_le hc)
      · exact (List.pairwise_cons.mp h).1 b h1

/-- The modelled stable sort really sorts by modified, descending. -/
theorem pairwise_sortByModified (l : List Session) :
    (sortByModified l).Pairwise (fun a b => dtKey b.modified ≤ dtKey a.modified) := by
  induction l with
  | nil => simp [sortByModified]
  | cons s ls ih =>
    show (insertByModified s (sortByModified ls)).Pairwise _
    exact pairwise_insertByModified s _ ih

/-- C6: whenever discovery returns a session list, that list is sorted by
the modified instant in descending order: every adjacent pair, and in fact
every pair, satisfies that the later element's key is not larger. -/
theorem C6_sorted_by_modified (now : PyDateTime) (root : Option (List FSItem))
    (l : List Session) (h : get_all_sessions now root = Except.ok l) :
    l.Pairwise (fun a b => dtKey b.modified ≤ dtKey a.modified) := by
  unfold get_all_sessions at h
  cases root with
  | none =>
    have h2 : Except.ok ([] : List Session) = Except.ok l := h
    injection h2 with h2
    rw [← h2]
    exact List.Pairwise.nil
  | some items =>
    have h2 : (match gatherSessions now items with
      | Except.error e => Except.error e
      | Except.ok v => Except.ok (sortByModified v)) = Except.ok l := h
    cases hg : gatherSessions now items with
    | error e =>
      rw [hg] at h2
      simp at h2
    | ok v =>
      rw [hg] at h2
      simp only [Except.ok.injEq] at h2
      rw [← h2]
      exact pairwise_sortByModified v

/-- Witness for C6 at a concrete filesystem with two log files. -/
theorem C6_sorted_by_modified_witness :
    sessionsEx.Pairwise (fun a b => dtKey b.modified ≤ dtKey a.modified) :=
  C6_sorted_by_modified nowEx fsEx sessionsEx rfl

/-- C7 counterexample: an index file whose JSON is well formed but whose
entries value is not iterable makes the whole discovery raise TypeError,
so discovery does fail globally at this input. -/
theorem C7_never_fails_counterexample :
    get_all_sessions nowEx (some [FSItem.dir
        { name := ("p".toList),
          index := some (IndexData.obj (some JEntries.notIterable) Option.none),
          jsonl := [] }])
      = Except.error PyErr.typeError := rfl

/-- C7 amended: a missing projects root yields the empty list and not an
error; a stray file at the top level is skipped; a directory whose index
file is malformed container JSON contributes zero sessions while the rest
of the scan completes; however an index file whose decoded entries value
is not iterable raises an uncaught TypeError that aborts the whole
discovery, so discovery is not failure-free on every input. -/
theorem C7_soft_failures_amended (now : PyDateTime) :
    get_all_sessions now Option.none = Except.ok []
    ∧ (∀ nm rest, get_all_sessions now (some (FSItem.file nm :: rest))
        = get_all_sessions now (some rest))
    ∧ (∀ nm files rest,
        get_all_sessions now (some (FSItem.dir
            { name := nm, index := some IndexData.malformed, jsonl := files } :: rest))
          = get_all_sessions now (some rest))
    ∧ (∀ nm files rest sv,
        get_all_sessions now (some (FSItem.dir
            { name := nm, index := some (IndexData.obj (some JEntries.notIterable) sv),
              jsonl := files } :: rest))
          = Except.error PyErr.typeError) := by
  refine ⟨rfl, ?_, ?_, ?_⟩
  · intro nm rest
    rfl
  · intro nm files rest
    have hg : gatherSessions now (FSItem.dir
        { name := nm, index := some IndexData.malformed, jsonl := files } :: rest)
        = gatherSessions now rest := by
      show (match (Except.ok [] : Except PyErr (List Session)) with
        | Except.error e => Except.error e
        | Except.ok found =>
          match gatherSessions now rest with
          | Except.error e => Except.error e
          | Except.ok others => Except.ok (found ++ others)) = gatherSessions now rest
      cases hr : gatherSessions now rest with
      | error e => rfl
      | ok others => simp
    show (match gatherSessions now (FSItem.dir
        { name := nm, index := some IndexData.malformed, jsonl := files } :: rest) with
      | Except.error e => Except.error e
      | Except.ok l => Except.ok (sortByModified l))
      = (match gatherSessions now rest with
        | Except.error e => Except.error e
        | Except.ok l => Except.ok (sortByModified l))
    rw [hg]
  · intro nm files rest sv
    rfl

/-- Witness for C10 at three concrete sessions covering the three display
branches. -/
theorem C10_display_name_witness :
    display_name sessEx1 = Except.ok (JVal.s ("Fix bug".toList))
    ∧ display_name sessEx2 = Except.ok (JVal.s ("hi".toList))
    ∧ display_name sessEx3 = Except.ok (JVal.s ("[abcdefgh]".toList)) := by
  refine ⟨?_, ?_, ?_⟩
  · exact (C10_display_name sessEx1).1 ("Fix bug".toList) rfl (by decide)
  · have h := (C10_display_name sessEx2).2.1 ("hi".toList) (by decide) rfl (by decide)
    rw [h]
    rfl
  · have h := (C10_display_name sessEx3).2.2 (by decide) (by decide)
    rw [h]
    rfl
